import Mathlib

/-!
Verification of the request-handling pipeline of a minimal HTTP/1.0 static
file server (`src/server.c`).

The embedding models one call of `handle_client` on a received buffer.  The
received bytes are taken as the contents of the C string that `recv` plus the
explicit NUL-termination produce, i.e. the bytes up to the first NUL, each
`Char` standing for one byte.  The filesystem (`realpath` resolution and the
state `read_file` observes through `fopen`/`ftell`/`malloc`/`fread`) is
abstract: an `FS` value supplies the outcome of every filesystem call the
handler makes.  The two `send` calls of the success path report results
`headerSendRes` and `bodySendRes`; the C code ignores the first and compares
the second against `-1`.

Every response the handler writes is modelled as a `(header, body)` pair of
byte strings, in the order the corresponding `send` calls happen; the wire
bytes of the connection are the concatenation of all pairs in order.

`snprintf` bounds that the reachable data never hits are modelled as plain
concatenation: the 512-byte header buffer (status texts are at most 21 bytes,
content types at most 24 bytes, and `Content-Length` digits at most 20 for a
64-bit `long`, far below 512) and the 256-byte error body buffer (the fixed
error messages are at most 29 bytes).  The `PATH_MAX` (4096) bound of the
candidate-path `snprintf` is kept, as `.take 4095`, since the root directory
string is unbounded input.
-/

namespace HttpServer

/-- The whitespace class of C `isspace` in the default locale, which is what
the `%s` conversions of `sscanf` skip and stop at. -/
def cIsSpace (c : Char) : Bool :=
  c = ' ' || c = '\t' || c = '\n' || c = '\x0b' || c = '\x0c' || c = '\r'

/-- One `%Ns` conversion of `sscanf`: skip whitespace, then consume at most
`width` non-whitespace characters (at least one, else the conversion fails and
scanning stops).  Returns the token and the unconsumed remainder. -/
def scanToken (width : Nat) (cs : List Char) : Option (List Char × List Char) :=
  let r := cs.dropWhile cIsSpace
  let tok := (r.takeWhile (fun c => !cIsSpace c)).take width
  if tok.isEmpty then none
  else some (tok, r.drop tok.length)

/-- `sscanf(buf, "%7s %255s %15s", method, path, protocol)` from
`handle_client`: three width-limited tokens; `none` when fewer than three
conversions succeed (`sscanf` result `≠ 3`). -/
def parse3 (buf : String) : Option (String × String × String) :=
  match scanToken 7 buf.data with
  | none => none
  | some (m, r1) =>
    match scanToken 255 r1 with
    | none => none
    | some (t, r2) =>
      match scanToken 15 r2 with
      | none => none
      | some (p, _) => some (⟨m⟩, ⟨t⟩, ⟨p⟩)

/-- `strchr(s, c)` followed by truncation at the found position: keep the
characters strictly before the first occurrence of `c` (the whole string when
`c` does not occur). -/
def cutAt (c : Char) (s : String) : String :=
  ⟨s.data.takeWhile (fun x => x ≠ c)⟩

/-- The query/fragment stripping of `handle_client`: truncate at the first
`?`, then at the first `#`. -/
def stripQueryFragment (s : String) : String :=
  cutAt '#' (cutAt '?' s)

/-- `strstr(path, "..") != NULL`: the two-character substring `..` occurs. -/
def hasDotDot : List Char → Bool
  | [] => false
  | '.' :: '.' :: _ => true
  | _ :: rest => hasDotDot rest

/-- The header `snprintf` format shared by `send_response` and the success
path of `handle_client`:
`"HTTP/1.0 %d %s\r\nContent-Type: %s\r\nContent-Length: %d\r\n\r\n"`. -/
def mkHeader (code : Nat) (text contentType : String) (len : Nat) : String :=
  "HTTP/1.0 " ++ toString code ++ " " ++ text ++ "\r\n" ++
  "Content-Type: " ++ contentType ++ "\r\n" ++
  "Content-Length: " ++ toString len ++ "\r\n" ++ "\r\n"

/-- `send_response`: one header `send` and, when the body is nonempty, one
body `send`.  Modelled as the `(header, body)` pair; a pair with empty body
contributes the same wire bytes as a lone header. -/
def sendResponsePair (code : Nat) (text contentType body : String) : String × String :=
  (mkHeader code text contentType body.length, body)

/-- The JSON error body `snprintf(body, 256, "{\"error\": \"%s\"}", message)`
of `send_error` (the fixed messages never reach the 256-byte bound). -/
def errorBody (message : String) : String :=
  "\x7b\"error\": \"" ++ message ++ "\"\x7d"

/-- The status-text `switch` of `send_error`. -/
def statusTextFor (code : Nat) : String :=
  if code = 400 then "Bad Request"
  else if code = 403 then "Forbidden"
  else if code = 404 then "Not Found"
  else if code = 500 then "Internal Server Error"
  else "Error"

/-- `send_error(fd, code, message)`: wrap the message in the JSON body and
delegate to `send_response` with the switched status text. -/
def sendErrorPair (code : Nat) (message : String) : String × String :=
  sendResponsePair code (statusTextFor code) "application/json" (errorBody message)

/-- What `read_file` observes about one file: whether `fopen` succeeds, the
size `ftell` reports after seeking to the end, whether `malloc(size + 1)`
succeeds, and the bytes `fread` actually delivers. -/
structure FileModel where
  openOk : Bool
  size : Nat
  mallocOk : Bool
  readResult : String

/-- `read_file(file_path, &out_size)`: fail on `fopen` failure, on `malloc`
failure, and when `fread` returns a byte count different from the size
determined via `ftell` (in that case the partially filled buffer is freed and
`NULL` returned).  On success it returns the buffer and stores the size in
`*out_size`. -/
def read_file (fm : FileModel) : Option (String × Nat) :=
  if fm.openOk = false then none
  else if fm.mallocOk = false then none
  else if fm.readResult.length ≠ fm.size then none
  else some (fm.readResult, fm.size)

/-- The abstract filesystem a request is handled against: the outcome of
`realpath` on any path, and the `FileModel` that `read_file` observes at any
path. -/
structure FS where
  realpath : String → Option String
  file : String → FileModel

/-- `strrchr(path, '.')` viewed as the suffix of the path starting at the
last `.` (the whole remaining string from that dot), or `none` when no dot
occurs anywhere in the path. -/
def lastDotSuffix : List Char → Option (List Char)
  | [] => none
  | c :: rest =>
    match lastDotSuffix rest with
    | some s => some s
    | none => if c = '.' then some (c :: rest) else none

/-- `get_content_type`: look at the suffix from the rightmost `.` of the whole
path; no dot at all means `text/plain`; otherwise a case-sensitive exact match
against the extension table, defaulting to `application/octet-stream`. -/
def get_content_type (path : String) : String :=
  match lastDotSuffix path.data with
  | none => "text/plain"
  | some ext =>
    if ext = ".html".data then "text/html"
    else if ext = ".jpg".data ∨ ext = ".jpeg".data then "image/jpeg"
    else if ext = ".png".data then "image/png"
    else if ext = ".css".data then "text/css"
    else if ext = ".js".data then "application/javascript"
    else "application/octet-stream"

/-- The candidate-path construction of `handle_client`: target `/` maps to
`<root_dir>/index.html`, any other target is concatenated after the root;
`snprintf` into a `PATH_MAX` buffer keeps at most 4095 bytes. -/
def candidateOf (rootDir path : String) : String :=
  if path = "/" then ⟨(rootDir ++ "/index.html").data.take 4095⟩
  else ⟨(rootDir ++ path).data.take 4095⟩

/-- The part of `handle_client` after request-line parsing, starting from the
parsed `method` and `path` tokens: query/fragment stripping, the literal `..`
check, the method check, candidate construction, `realpath` resolution, the
root-prefix containment check, `read_file`, and the success response followed
by the best-effort 500 when the body `send` reports `-1`. -/
def afterParse (fs : FS) (rootDir method target : String)
    (bodySendRes : Int) : List (String × String) :=
  let path := stripQueryFragment target
  if hasDotDot path.data then [sendErrorPair 403 "Forbidden path traversal"]
  else if method ≠ "GET" then [sendErrorPair 501 "Only GET is supported"]
  else
    match fs.realpath (candidateOf rootDir path) with
    | none => [sendErrorPair 404 "File not found"]
    | some realRequested =>
      -- the return value of `realpath(root_dir, real_root)` is not checked in
      -- the C code; theorems hypothesize that the root canonicalizes.
      -- `strncmp(real_requested_path, real_root, strlen(real_root)) != 0`
      -- is the byte-prefix test on the two resolved paths.
      let realRoot := (fs.realpath rootDir).getD ""
      if realRoot.data.isPrefixOf realRequested.data = false then
        [sendErrorPair 403 "Forbidden path"]
      else
        match read_file (fs.file realRequested) with
        | none => [sendErrorPair 404 "File not found"]
        | some (content, fileSize) =>
          let hdr := mkHeader 200 "OK" (get_content_type realRequested) fileSize
          (hdr, ⟨content.data.take fileSize⟩) ::
            (if bodySendRes = -1 then
              [sendErrorPair 500 "Failed to send response body"]
            else [])

/-- One call of `handle_client` on the received buffer `buf` (the bytes up to
the first NUL); an empty buffer models `numbytes <= 0`, where the connection
is closed without any response.  `headerSendRes` is the ignored result of the
header `send`; `bodySendRes` is the result of the body `send` on the success
path. -/
def handleClient (fs : FS) (rootDir buf : String)
    (_headerSendRes bodySendRes : Int) : List (String × String) :=
  if buf.isEmpty then []
  else
    match parse3 buf with
    | none => [sendErrorPair 400 "Malformed request"]
    | some (method, target, _protocol) =>
      afterParse fs rootDir method target bodySendRes

/-- The three status-code characters of a response header built in the
`"HTTP/1.0 %d %s..."` format: characters 9, 10 and 11. -/
def statusCodeChars (header : String) : List Char :=
  (header.data.drop 9).take 3

/-- A filesystem on which every `realpath` call fails and every file is
absent. -/
def fsEmpty : FS where
  realpath := fun _ => none
  file := fun _ => ⟨false, 0, true, ""⟩

/-- The number of whitespace-separated tokens in a character sequence (the
boolean argument records whether the scan is currently inside a token). -/
def countTokensAux : Bool → List Char → Nat
  | _, [] => 0
  | inTok, c :: rest =>
    if cIsSpace c then countTokensAux false rest
    else (if inTok then 0 else 1) + countTokensAux true rest

/-- The number of whitespace-separated tokens in a string. -/
def countTokens (s : String) : Nat :=
  countTokensAux false s.data

/-- The first line of a received buffer: the characters before the first
newline. -/
def firstLine (buf : String) : String :=
  cutAt '\n' buf

/-! ### Helper lemmas -/

theorem data_append (s t : String) : (s ++ t).data = s.data ++ t.data := rfl

/-- A `%Ns` conversion at the start of a token: with no leading whitespace, a
nonempty all-non-whitespace token followed by nothing or by whitespace, the
conversion takes the first `min N (length)` characters of the token. -/
theorem scanToken_token (w : Nat) (tok rest : List Char) (hw : 0 < w)
    (hne : tok ≠ []) (htok : ∀ c ∈ tok, cIsSpace c = false)
    (hstop : ∀ c, rest.head? = some c → cIsSpace c = true) :
    scanToken w (tok ++ rest) = some (tok.take w, tok.drop (min w tok.length) ++ rest) := by
  obtain ⟨c, tok0, rfl⟩ : ∃ c tok0, tok = c :: tok0 := by
    cases tok with
    | nil => exact absurd rfl hne
    | cons c tok0 => exact ⟨c, tok0, rfl⟩
  have hctok : ∀ x ∈ c :: tok0, (fun y => !cIsSpace y) x = true := by
    intro x hx
    simp [htok x hx]
  have hdrop : ((c :: tok0) ++ rest).dropWhile cIsSpace = (c :: tok0) ++ rest := by
    rw [List.cons_append, List.dropWhile_cons_of_neg]
    simp [htok c (List.mem_cons_self c tok0)]
  have htake : ((c :: tok0) ++ rest).takeWhile (fun y => !cIsSpace y) = c :: tok0 := by
    rw [List.takeWhile_append_of_pos hctok]
    cases hr : rest with
    | nil => simp
    | cons d rest0 =>
      have hd := hstop d (by rw [hr]; rfl)
      rw [List.takeWhile_cons_of_neg (by simp [hd])]
      simp
  have hlen : ((c :: tok0).take w).length = min w (c :: tok0).length :=
    List.length_take ..
  have hmin : min w (c :: tok0).length ≤ (c :: tok0).length := Nat.min_le_right ..
  have hsplit : (c :: tok0) ++ rest =
      ((c :: tok0).take (min w (c :: tok0).length) ++
        (c :: tok0).drop (min w (c :: tok0).length)) ++ rest := by
    rw [List.take_append_drop]
  have hdropn : ((c :: tok0) ++ rest).drop (min w (c :: tok0).length) =
      (c :: tok0).drop (min w (c :: tok0).length) ++ rest := by
    rw [hsplit, List.append_assoc, List.drop_left']
    rw [List.length_take]
    omega
  have hnonempty : ¬((c :: tok0).take w).isEmpty = true := by
    cases w with
    | zero => exact absurd hw (by simp)
    | succ w0 => simp [List.take]
  unfold scanToken
  simp only [hdrop, htake, hlen, hdropn, if_neg hnonempty]

/-- Leading whitespace is skipped by a `%Ns` conversion. -/
theorem scanToken_ws (w : Nat) (ws cs : List Char)
    (hws : ∀ c ∈ ws, cIsSpace c = true) :
    scanToken w (ws ++ cs) = scanToken w cs := by
  unfold scanToken
  rw [List.dropWhile_append_of_pos hws]

/-- `handle_client` on a nonempty buffer whose request line parses: control
reaches the post-parse pipeline. -/
theorem handleClient_parsed (fs : FS) (rootDir buf : String)
    {m t pr : String} (hne : buf ≠ "") (h : parse3 buf = some (m, t, pr))
    (hs bs : Int) :
    handleClient fs rootDir buf hs bs = afterParse fs rootDir m t bs := by
  unfold handleClient
  rw [if_neg (fun hh => hne ((String.isEmpty_iff buf).mp hh)), h]

/-- `handle_client` on a nonempty buffer that `sscanf` rejects: the 400
response is the only output. -/
theorem handleClient_malformed (fs : FS) (rootDir buf : String)
    (hne : buf ≠ "") (h : parse3 buf = none) (hs bs : Int) :
    handleClient fs rootDir buf hs bs = [sendErrorPair 400 "Malformed request"] := by
  unfold handleClient
  rw [if_neg (fun hh => hne ((String.isEmpty_iff buf).mp hh)), h]

/-- The `..` branch of the pipeline. -/
theorem afterParse_dotdot (fs : FS) (rootDir m t : String) (bs : Int)
    (h : hasDotDot (stripQueryFragment t).data = true) :
    afterParse fs rootDir m t bs = [sendErrorPair 403 "Forbidden path traversal"] := by
  unfold afterParse
  rw [if_pos h]

/-- The non-`GET` branch of the pipeline. -/
theorem afterParse_method (fs : FS) (rootDir m t : String) (bs : Int)
    (hdot : hasDotDot (stripQueryFragment t).data = false) (hm : m ≠ "GET") :
    afterParse fs rootDir m t bs = [sendErrorPair 501 "Only GET is supported"] := by
  unfold afterParse
  rw [if_neg (by simp [hdot]), if_pos hm]

/-- The branch where `realpath` fails on the candidate path. -/
theorem afterParse_realpath_none (fs : FS) (rootDir m t : String) (bs : Int)
    (hdot : hasDotDot (stripQueryFragment t).data = false) (hm : m = "GET")
    (hrp : fs.realpath (candidateOf rootDir (stripQueryFragment t)) = none) :
    afterParse fs rootDir m t bs = [sendErrorPair 404 "File not found"] := by
  unfold afterParse
  rw [if_neg (by simp [hdot]), if_neg (by simp [hm]), hrp]

/-- The branch where the canonicalized candidate fails the root-prefix
containment check. -/
theorem afterParse_not_contained (fs : FS) (rootDir m t : String) (bs : Int)
    {rp : String}
    (hdot : hasDotDot (stripQueryFragment t).data = false) (hm : m = "GET")
    (hrp : fs.realpath (candidateOf rootDir (stripQueryFragment t)) = some rp)
    (hpre : ((fs.realpath rootDir).getD "").data.isPrefixOf rp.data = false) :
    afterParse fs rootDir m t bs = [sendErrorPair 403 "Forbidden path"] := by
  unfold afterParse
  rw [if_neg (by simp [hdot]), if_neg (by simp [hm]), hrp]
  simp only [hpre, if_pos]

/-- The branch where the contained file fails to load. -/
theorem afterParse_read_none (fs : FS) (rootDir m t : String) (bs : Int)
    {rp : String}
    (hdot : hasDotDot (stripQueryFragment t).data = false) (hm : m = "GET")
    (hrp : fs.realpath (candidateOf rootDir (stripQueryFragment t)) = some rp)
    (hpre : ((fs.realpath rootDir).getD "").data.isPrefixOf rp.data = true)
    (hread : read_file (fs.file rp) = none) :
    afterParse fs rootDir m t bs = [sendErrorPair 404 "File not found"] := by
  unfold afterParse
  rw [if_neg (by simp [hdot]), if_neg (by simp [hm]), hrp]
  simp only [hpre]
  rw [if_neg (by simp), hread]

/-- The success branch: the 200 response, followed by the best-effort 500
exactly when the body `send` reports `-1`. -/
theorem afterParse_success (fs : FS) (rootDir m t : String) (bs : Int)
    {rp content : String} {n : Nat}
    (hdot : hasDotDot (stripQueryFragment t).data = false) (hm : m = "GET")
    (hrp : fs.realpath (candidateOf rootDir (stripQueryFragment t)) = some rp)
    (hpre : ((fs.realpath rootDir).getD "").data.isPrefixOf rp.data = true)
    (hread : read_file (fs.file rp) = some (content, n)) :
    afterParse fs rootDir m t bs =
      (mkHeader 200 "OK" (get_content_type rp) n, ⟨content.data.take n⟩) ::
        (if bs = -1 then [sendErrorPair 500 "Failed to send response body"] else []) := by
  unfold afterParse
  rw [if_neg (by simp [hdot]), if_neg (by simp [hm]), hrp]
  simp only [hpre]
  rw [if_neg (by simp), hread]

/-- Successful loads return exactly the bytes `fread` delivered, whose count
matches the `ftell` size. -/
theorem read_file_some {fm : FileModel} {content : String} {n : Nat}
    (h : read_file fm = some (content, n)) :
    content = fm.readResult ∧ content.length = n := by
  unfold read_file at h
  by_cases h1 : fm.openOk = false
  · rw [if_pos h1] at h; cases h
  · rw [if_neg h1] at h
    by_cases h2 : fm.mallocOk = false
    · rw [if_pos h2] at h; cases h
    · rw [if_neg h2] at h
      by_cases h3 : fm.readResult.length ≠ fm.size
      · rw [if_pos h3] at h; cases h
      · rw [if_neg h3] at h
        obtain ⟨rfl, rfl⟩ := Prod.mk.injEq .. ▸ Option.some.injEq .. ▸ h
        exact ⟨rfl, not_ne_iff.mp h3⟩

/-- If the stripped targets agree on the `..` test and produce the same
candidate path, the post-parse pipeline cannot tell them apart. -/
theorem afterParse_eq_of_candidate (fs : FS) (rootDir m t1 t2 : String) (bs : Int)
    (h1 : hasDotDot (stripQueryFragment t1).data = hasDotDot (stripQueryFragment t2).data)
    (h2 : candidateOf rootDir (stripQueryFragment t1) =
      candidateOf rootDir (stripQueryFragment t2)) :
    afterParse fs rootDir m t1 bs = afterParse fs rootDir m t2 bs := by
  simp only [afterParse]
  rw [h1, h2]

/-- `lastDotSuffix` is `none` exactly on dot-free paths. -/
theorem lastDotSuffix_of_not_mem : ∀ {cs : List Char}, '.' ∉ cs →
    lastDotSuffix cs = none := by
  intro cs
  induction cs with
  | nil => intro _; rfl
  | cons c rest ih =>
    intro h
    simp only [List.mem_cons, not_or] at h
    have hc : ¬c = '.' := fun hh => h.1 (Eq.symm hh)
    simp [lastDotSuffix, ih h.2, hc]

/-- On a path containing a dot, `strrchr` selects the suffix from the
rightmost dot of the whole path. -/
theorem lastDotSuffix_of_mem : ∀ {cs : List Char}, '.' ∈ cs →
    lastDotSuffix cs =
      some ('.' :: (cs.reverse.takeWhile (fun c => c ≠ '.')).reverse) := by
  intro cs
  induction cs with
  | nil => intro h; cases h
  | cons c rest ih =>
    intro h
    by_cases hr : '.' ∈ rest
    · have hrec := ih hr
      have hstep : lastDotSuffix (c :: rest) = lastDotSuffix rest := by
        simp [lastDotSuffix, hrec]
      rw [hstep, hrec]
      have hlen : ¬(rest.reverse.takeWhile (fun c => decide (c ≠ '.'))).length =
          rest.reverse.length := by
        intro hlen
        have heq := (List.takeWhile_prefix (l := rest.reverse)
          (fun c => decide (c ≠ '.'))).eq_of_length hlen
        have hall := List.takeWhile_eq_self_iff.mp heq
        have hmem : '.' ∈ rest.reverse := by simpa using hr
        have := hall '.' hmem
        simp at this
      rw [List.reverse_cons, List.takeWhile_append, if_neg hlen]
    · have hc : c = '.' := by
        rcases List.mem_cons.mp h with h1 | h2
        · exact h1.symm
        · exact absurd h2 hr
      have hrest : lastDotSuffix rest = none := lastDotSuffix_of_not_mem hr
      have hstep : lastDotSuffix (c :: rest) = some (c :: rest) := by
        simp [lastDotSuffix, hrest, hc]
      rw [hstep, hc]
      have hall : ∀ x ∈ rest.reverse, (fun c => decide (c ≠ '.')) x = true := by
        intro x hx
        have hxr : x ∈ rest := by simpa using hx
        have : x ≠ '.' := fun hh => hr (hh ▸ hxr)
        simp [this]
      rw [List.reverse_cons, List.takeWhile_append_of_pos hall]
      simp

/-- The extension table as the spec states it. -/
def specExtTable : List (String × String) :=
  [(".html", "text/html"), (".jpg", "image/jpeg"), (".jpeg", "image/jpeg"),
   (".png", "image/png"), (".css", "text/css"), (".js", "application/javascript")]

/-- Association-list lookup by case-sensitive exact string equality. -/
def specLookup : List (String × String) → String → Option String
  | [], _ => none
  | (k, v) :: rest, e => if e = k then some v else specLookup rest e

/-- The content-type resolver as the spec words it: select the substring from
the rightmost `.` in the entire path; `text/plain` when no `.` is present;
otherwise the table lookup, defaulting to `application/octet-stream`. -/
def specContentType (path : String) : String :=
  if '.' ∈ path.data then
    (specLookup specExtTable
      ⟨'.' :: (path.data.reverse.takeWhile (fun c => c ≠ '.')).reverse⟩).getD
      "application/octet-stream"
  else "text/plain"

/-- The `strcmp` chain of `get_content_type` agrees with the spec's lookup
table on every extension. -/
theorem extension_chain_eq_table (e : List Char) :
    (if e = ".html".data then "text/html"
     else if e = ".jpg".data ∨ e = ".jpeg".data then "image/jpeg"
     else if e = ".png".data then "image/png"
     else if e = ".css".data then "text/css"
     else if e = ".js".data then "application/javascript"
     else "application/octet-stream") =
      (specLookup specExtTable ⟨e⟩).getD "application/octet-stream" := by
  have hmk : ∀ s : String, ((⟨e⟩ : String) = s) = (e = s.data) := by
    intro s
    apply propext
    constructor
    · intro hh; rw [← hh]
    · intro hh; exact String.ext hh
  simp only [specExtTable, specLookup, hmk, Option.getD]
  by_cases h1 : e = ".html".data
  · simp [h1]
  by_cases h2 : e = ".jpg".data
  · simp [h1, h2]
  by_cases h3 : e = ".jpeg".data
  · have : ¬".jpeg".data = ".html".data := by decide
    simp [h1, h2, h3]
  by_cases h4 : e = ".png".data
  · simp [h1, h2, h3, h4]
  by_cases h5 : e = ".css".data
  · simp [h1, h2, h3, h4, h5]
  by_cases h6 : e = ".js".data
  · simp [h1, h2, h3, h4, h5, h6]
  simp [h1, h2, h3, h4, h5, h6]

/-- C7: the content-type resolver is a pure total function on path strings:
it selects the substring from the rightmost `.` in the entire path; with no
`.` present it returns `text/plain`; it maps `.html`, `.jpg`/`.jpeg`, `.png`,
`.css` and `.js` by case-sensitive exact match to their MIME types and any
other extension to `application/octet-stream`. -/
theorem content_type_matches_spec (path : String) :
    get_content_type path = specContentType path := by
  unfold get_content_type specContentType
  by_cases h : '.' ∈ path.data
  · rw [lastDotSuffix_of_mem h, if_pos h]
    exact extension_chain_eq_table _
  · rw [lastDotSuffix_of_not_mem h, if_neg h]

/-- C6: with the filesystem and the root directory fixed, a `GET` request for
target `/` and one for target `/index.html` produce byte-identical responses:
target `/` is mapped to `<root_dir>/index.html` before resolution. -/
theorem root_target_round_trip (fs : FS) (rootDir : String) (hs bs : Int) :
    handleClient fs rootDir "GET / HTTP/1.0" hs bs =
      handleClient fs rootDir "GET /index.html HTTP/1.0" hs bs := by
  rw [handleClient_parsed fs rootDir _ (by decide)
    (show parse3 "GET / HTTP/1.0" = some ("GET", "/", "HTTP/1.0") from by decide) hs bs]
  rw [handleClient_parsed fs rootDir _ (by decide)
    (show parse3 "GET /index.html HTTP/1.0" = some ("GET", "/index.html", "HTTP/1.0")
      from by decide) hs bs]
  apply afterParse_eq_of_candidate
  · decide
  · show candidateOf rootDir "/" = candidateOf rootDir "/index.html"
    unfold candidateOf
    rw [if_pos rfl, if_neg (by decide : ¬("/index.html" : String) = "/")]

/-- C10: a request line whose second token exceeds 255 bytes is not rejected
as malformed: the scan still finds three tokens, the target is silently
truncated to its first 255 bytes, the following bytes of the same token are
consumed as the (at most 15 byte) protocol token, and handling proceeds with
the truncated target. -/
theorem long_target_truncated (m t r : String)
    (hm0 : m.data ≠ []) (hm7 : m.data.length ≤ 7)
    (hmw : ∀ c ∈ m.data, cIsSpace c = false)
    (htw : ∀ c ∈ t.data, cIsSpace c = false)
    (ht : 255 < t.data.length) :
    parse3 (m ++ " " ++ t ++ " " ++ r) =
      some (m, ⟨t.data.take 255⟩, ⟨(t.data.drop 255).take 15⟩) ∧
    ∀ (fs : FS) (rootDir : String) (hs bs : Int),
      handleClient fs rootDir (m ++ " " ++ t ++ " " ++ r) hs bs =
        afterParse fs rootDir m ⟨t.data.take 255⟩ bs := by
  have hdata : (m ++ " " ++ t ++ " " ++ r).data =
      m.data ++ ([' '] ++ (t.data ++ ([' '] ++ r.data))) := by
    simp only [data_append, List.append_assoc]
  have hsp : ∀ c : Char, ([' '] ++ (t.data ++ ([' '] ++ r.data))).head? = some c →
      cIsSpace c = true := by
    intro c hc
    have : c = ' ' := by simpa using Eq.symm hc
    rw [this]; rfl
  have h1 : scanToken 7 (m.data ++ ([' '] ++ (t.data ++ ([' '] ++ r.data)))) =
      some (m.data, [' '] ++ (t.data ++ ([' '] ++ r.data))) := by
    rw [scanToken_token 7 m.data _ (by norm_num) hm0 hmw hsp]
    rw [List.take_of_length_le hm7, Nat.min_eq_right hm7, List.drop_length]
    rfl
  have ht0 : t.data ≠ [] := by
    intro hh
    rw [hh] at ht
    simp at ht
  have hsp2 : ∀ c : Char, ([' '] ++ r.data).head? = some c → cIsSpace c = true := by
    intro c hc
    have : c = ' ' := by simpa using Eq.symm hc
    rw [this]; rfl
  have h2 : scanToken 255 ([' '] ++ (t.data ++ ([' '] ++ r.data))) =
      some (t.data.take 255, t.data.drop 255 ++ ([' '] ++ r.data)) := by
    rw [scanToken_ws 255 [' '] _ (by intro c hc; simp at hc; rw [hc]; rfl)]
    rw [scanToken_token 255 t.data _ (by norm_num) ht0 htw hsp2]
    rw [Nat.min_eq_left (Nat.le_of_lt ht)]
  have hd0 : t.data.drop 255 ≠ [] := by
    intro hh
    have hlen := congrArg List.length hh
    rw [List.length_drop] at hlen
    simp only [List.length_nil] at hlen
    omega
  have h3 : scanToken 15 (t.data.drop 255 ++ ([' '] ++ r.data)) =
      some ((t.data.drop 255).take 15,
        (t.data.drop 255).drop (min 15 (t.data.drop 255).length) ++ ([' '] ++ r.data)) :=
    scanToken_token 15 _ _ (by norm_num) hd0
      (fun c hc => htw c (List.mem_of_mem_drop hc)) hsp2
  have hp : parse3 (m ++ " " ++ t ++ " " ++ r) =
      some (m, ⟨t.data.take 255⟩, ⟨(t.data.drop 255).take 15⟩) := by
    simp only [parse3, hdata, h1, h2, h3]
  refine ⟨hp, ?_⟩
  intro fs rootDir hs bs
  have hne : (m ++ " " ++ t ++ " " ++ r) ≠ "" := by
    intro hh
    have := congrArg String.data hh
    rw [hdata] at this
    simp at this
  exact handleClient_parsed fs rootDir _ hne hp hs bs

/-- Witness for C10 at a concrete 300-byte target token. -/
theorem long_target_truncated_witness :
    parse3 ("GET" ++ " " ++ (⟨List.replicate 300 'a'⟩ : String) ++ " " ++ "HTTP/1.0") =
      some ("GET", ⟨(List.replicate 300 'a').take 255⟩,
        ⟨((List.replicate 300 'a').drop 255).take 15⟩) :=
  (long_target_truncated "GET" ⟨List.replicate 300 'a'⟩ "HTTP/1.0"
    (by decide) (by decide) (by decide)
    (by
      intro c hc
      have hca : c = 'a' := List.eq_of_mem_replicate hc
      rw [hca]; rfl)
    (by
      show (255:Nat) < (List.replicate 300 'a').length
      rw [List.length_replicate]
      omega)).1

/-- C2 counterexample: the target token `/a?..` contains the literal `..`
before query/fragment stripping, yet the response is 404, not 403 — the `..`
check runs only after the query string has been stripped. -/
theorem dotdot_before_strip_cex :
    hasDotDot ("/a?.." : String).data = true ∧
    parse3 "GET /a?.. HTTP/1.0" = some ("GET", "/a?..", "HTTP/1.0") ∧
    handleClient fsEmpty "/r" "GET /a?.. HTTP/1.0" 0 0 =
      [sendErrorPair 404 "File not found"] ∧
    ((handleClient fsEmpty "/r" "GET /a?.. HTTP/1.0" 0 0).map
      fun pr => statusCodeChars pr.1) = [['4', '0', '4']] := by
  refine ⟨by decide, by decide, by decide, by decide⟩

/-- C2 (amended): for every parsed request whose target contains the literal
substring `..` after query/fragment stripping, the response is the 403
traversal error — for every filesystem (so before any resolution and
regardless of whether a matching file exists), and regardless of the
method. -/
theorem dotdot_after_strip_403 (fs : FS) (rootDir buf : String)
    {m t pr : String} (hs bs : Int) (hne : buf ≠ "")
    (hp : parse3 buf = some (m, t, pr))
    (hdot : hasDotDot (stripQueryFragment t).data = true) :
    handleClient fs rootDir buf hs bs =
      [sendErrorPair 403 "Forbidden path traversal"] := by
  rw [handleClient_parsed fs rootDir buf hne hp hs bs]
  exact afterParse_dotdot fs rootDir m t bs hdot

/-- Witness for the amended C2 at a concrete traversal request. -/
theorem dotdot_after_strip_403_witness :
    handleClient fsEmpty "/r" "GET /.. HTTP/1.0" 0 0 =
      [sendErrorPair 403 "Forbidden path traversal"] :=
  dotdot_after_strip_403 fsEmpty "/r" "GET /.. HTTP/1.0" 0 0 (by decide)
    (show parse3 "GET /.. HTTP/1.0" = some ("GET", "/..", "HTTP/1.0") from by decide)
    (by decide)

/-- C3 counterexample: `POST /.. HTTP/1.0` is a well-formed request whose
method is not `GET`, yet the response is the 403 traversal error, not 501:
the `..` check precedes the method check. -/
theorem non_get_dotdot_cex :
    parse3 "POST /.. HTTP/1.0" = some ("POST", "/..", "HTTP/1.0") ∧
    ("POST" : String) ≠ "GET" ∧
    handleClient fsEmpty "/r" "POST /.. HTTP/1.0" 0 0 =
      [sendErrorPair 403 "Forbidden path traversal"] ∧
    handleClient fsEmpty "/r" "POST /.. HTTP/1.0" 0 0 ≠
      [sendErrorPair 501 "Only GET is supported"] := by
  refine ⟨by decide, by decide, by decide, by decide⟩

/-- C3 (amended): for every well-formed request whose stripped target is free
of `..` and whose method token is not exactly `GET`, the response has status
501 with the generic status text `Error` and the JSON body
`{"error": "Only GET is supported"}`. -/
theorem non_get_501 (fs : FS) (rootDir buf : String) {m t pr : String}
    (hs bs : Int) (hne : buf ≠ "") (hp : parse3 buf = some (m, t, pr))
    (hdot : hasDotDot (stripQueryFragment t).data = false) (hm : m ≠ "GET") :
    handleClient fs rootDir buf hs bs =
      [sendErrorPair 501 "Only GET is supported"] ∧
    sendErrorPair 501 "Only GET is supported" =
      (mkHeader 501 "Error" "application/json"
        (errorBody "Only GET is supported").length,
        "\x7b\"error\": \"Only GET is supported\"\x7d") := by
  constructor
  · rw [handleClient_parsed fs rootDir buf hne hp hs bs]
    exact afterParse_method fs rootDir m t bs hdot hm
  · rfl

/-- Witness for the amended C3 at a concrete `POST` request. -/
theorem non_get_501_witness :
    handleClient fsEmpty "/r" "POST / HTTP/1.0" 0 0 =
      [sendErrorPair 501 "Only GET is supported"] :=
  (non_get_501 fsEmpty "/r" "POST / HTTP/1.0" 0 0 (by decide)
    (show parse3 "POST / HTTP/1.0" = some ("POST", "/", "HTTP/1.0") from by decide)
    (by decide) (by decide)).1

/-- C4 counterexample: the first line of `GET /x\nHost: a` holds only two
whitespace-separated tokens, yet `sscanf` scans past the newline, finds three
tokens, and the handler answers 404, not 400. -/
theorem first_line_two_tokens_cex :
    countTokens (firstLine "GET /x\nHost: a") = 2 ∧
    parse3 "GET /x\nHost: a" = some ("GET", "/x", "Host:") ∧
    handleClient fsEmpty "/r" "GET /x\nHost: a" 0 0 =
      [sendErrorPair 404 "File not found"] ∧
    handleClient fsEmpty "/r" "GET /x\nHost: a" 0 0 ≠
      [sendErrorPair 400 "Malformed request"] := by
  refine ⟨by decide, by decide, by decide, by decide⟩

/-- C4 (amended): for every nonempty received buffer in which the
whitespace-separated scan of the whole buffer finds fewer than three tokens,
the handler responds 400 with the JSON body `{"error": "Malformed request"}`
and attempts no further parsing (the outcome is the same on every
filesystem). -/
theorem malformed_400 (fs : FS) (rootDir buf : String) (hs bs : Int)
    (hne : buf ≠ "") (hp : parse3 buf = none) :
    handleClient fs rootDir buf hs bs = [sendErrorPair 400 "Malformed request"] ∧
    sendErrorPair 400 "Malformed request" =
      (mkHeader 400 "Bad Request" "application/json"
        (errorBody "Malformed request").length,
        "\x7b\"error\": \"Malformed request\"\x7d") :=
  ⟨handleClient_malformed fs rootDir buf hne hp hs bs, rfl⟩

/-- Witness for the amended C4 at a one-token request line. -/
theorem malformed_400_witness :
    handleClient fsEmpty "/r" "GET\r\n" 0 0 =
      [sendErrorPair 400 "Malformed request"] :=
  (malformed_400 fsEmpty "/r" "GET\r\n" 0 0 (by decide) (by decide)).1

/-- The status-code characters of a formatted header are the decimal digits
of the status code, for three-digit codes. -/
theorem statusCodeChars_mkHeader (code : Nat) (text ct : String) (len : Nat)
    (h : (toString code).data.length = 3) :
    statusCodeChars (mkHeader code text ct len) = (toString code).data := by
  unfold statusCodeChars mkHeader
  simp only [data_append, List.append_assoc]
  rw [List.drop_left' (show (("HTTP/1.0 " : String).data).length = 9 from rfl)]
  rw [List.take_left' h]

/-- Every element of the handler's output is either an error response pair
with one of the five error codes, or the 200 success pair together with the
resolution and load facts that produced it. -/
theorem handleClient_mem_cases (fs : FS) (rootDir buf : String) (hs bs : Int)
    (pr : String × String) (hmem : pr ∈ handleClient fs rootDir buf hs bs) :
    (∃ code msg, (code = 400 ∨ code = 403 ∨ code = 404 ∨ code = 500 ∨ code = 501) ∧
      pr = sendErrorPair code msg) ∨
    (∃ m t pr2 rp content n, parse3 buf = some (m, t, pr2) ∧
      fs.realpath (candidateOf rootDir (stripQueryFragment t)) = some rp ∧
      ((fs.realpath rootDir).getD "").data.isPrefixOf rp.data = true ∧
      read_file (fs.file rp) = some (content, n) ∧
      pr = (mkHeader 200 "OK" (get_content_type rp) n, ⟨content.data.take n⟩)) := by
  unfold handleClient at hmem
  split at hmem
  · exact absurd hmem (List.not_mem_nil pr)
  · split at hmem
    · left
      exact ⟨400, "Malformed request", by simp, by simpa using hmem⟩
    · rename_i m t pr2 heq
      simp only [afterParse] at hmem
      split at hmem
      · left
        exact ⟨403, "Forbidden path traversal", by simp, by simpa using hmem⟩
      · split at hmem
        · left
          exact ⟨501, "Only GET is supported", by simp, by simpa using hmem⟩
        · split at hmem
          · left
            exact ⟨404, "File not found", by simp, by simpa using hmem⟩
          · rename_i rp hrp
            split at hmem
            · left
              exact ⟨403, "Forbidden path", by simp, by simpa using hmem⟩
            · rename_i hpre
              split at hmem
              · left
                exact ⟨404, "File not found", by simp, by simpa using hmem⟩
              · rename_i content n hread
                rcases List.mem_cons.mp hmem with h1 | h2
                · right
                  refine ⟨m, t, pr2, rp, content, n, heq, hrp, ?_, hread, h1⟩
                  simpa using hpre
                · by_cases hbs : bs = -1
                  · rw [if_pos hbs] at h2
                    left
                    exact ⟨500, "Failed to send response body", by simp,
                      by simpa using h2⟩
                  · rw [if_neg hbs] at h2
                    exact absurd h2 (List.not_mem_nil pr)

/-- A filesystem with root `/r` canonicalizing to itself and one readable
two-byte file at `/r/a.html`. -/
def fsDemo : FS where
  realpath := fun s =>
    if s = "/r" then some "/r"
    else if s = "/r/a.html" then some "/r/a.html"
    else none
  file := fun s =>
    if s = "/r/a.html" then ⟨true, 2, true, "hi"⟩ else ⟨false, 0, true, ""⟩

/-- C8: for every well-formed `GET` request passing the `..` check, a
candidate that does not canonicalize yields 404 "File not found"; a contained
canonical path whose file cannot be opened or fully read yields 404 "File not
found"; and a read whose delivered byte count differs from the expected size
is reported as load failure (`none`) — never as a short body. -/
theorem load_failure_404 (fs : FS) (rootDir buf : String) {m t pr : String}
    (hs bs : Int) (hne : buf ≠ "") (hp : parse3 buf = some (m, t, pr))
    (hdot : hasDotDot (stripQueryFragment t).data = false) (hm : m = "GET") :
    (fs.realpath (candidateOf rootDir (stripQueryFragment t)) = none →
      handleClient fs rootDir buf hs bs = [sendErrorPair 404 "File not found"]) ∧
    (∀ rp : String,
      fs.realpath (candidateOf rootDir (stripQueryFragment t)) = some rp →
      ((fs.realpath rootDir).getD "").data.isPrefixOf rp.data = true →
      read_file (fs.file rp) = none →
      handleClient fs rootDir buf hs bs = [sendErrorPair 404 "File not found"]) ∧
    (∀ fm : FileModel, fm.readResult.length ≠ fm.size → read_file fm = none) := by
  refine ⟨?_, ?_, ?_⟩
  · intro hrp
    rw [handleClient_parsed fs rootDir buf hne hp hs bs]
    exact afterParse_realpath_none fs rootDir m t bs hdot hm hrp
  · intro rp hrp hpre hread
    rw [handleClient_parsed fs rootDir buf hne hp hs bs]
    exact afterParse_read_none fs rootDir m t bs hdot hm hrp hpre hread
  · intro fm hfm
    unfold read_file
    by_cases h1 : fm.openOk = false
    · rw [if_pos h1]
    · rw [if_neg h1]
      by_cases h2 : fm.mallocOk = false
      · rw [if_pos h2]
      · rw [if_neg h2, if_pos hfm]

/-- Witness for C8 at a request for a missing file. -/
theorem load_failure_404_witness :
    handleClient fsEmpty "/r" "GET /missing.png HTTP/1.0" 0 0 =
      [sendErrorPair 404 "File not found"] :=
  (load_failure_404 fsEmpty "/r" "GET /missing.png HTTP/1.0" 0 0 (by decide)
    (show parse3 "GET /missing.png HTTP/1.0" =
      some ("GET", "/missing.png", "HTTP/1.0") from by decide)
    (by decide) rfl).1 rfl

/-- C9: on the success path, the best-effort 500 "Failed to send response
body" is attempted exactly when the body `send` reports `-1`: the header
send result is never consulted, and a body send that is not `-1` — even one
shorter than the file size — triggers no error response. -/
theorem send_failure_500 (fs : FS) (rootDir buf : String)
    {m t pr rp content : String} {n : Nat}
    (hs1 hs2 bs : Int) (hne : buf ≠ "") (hp : parse3 buf = some (m, t, pr))
    (hdot : hasDotDot (stripQueryFragment t).data = false) (hm : m = "GET")
    (hrp : fs.realpath (candidateOf rootDir (stripQueryFragment t)) = some rp)
    (hpre : ((fs.realpath rootDir).getD "").data.isPrefixOf rp.data = true)
    (hread : read_file (fs.file rp) = some (content, n)) :
    handleClient fs rootDir buf hs1 bs = handleClient fs rootDir buf hs2 bs ∧
    (bs = -1 →
      handleClient fs rootDir buf hs1 bs =
        [(mkHeader 200 "OK" (get_content_type rp) n, ⟨content.data.take n⟩),
          sendErrorPair 500 "Failed to send response body"]) ∧
    (bs ≠ -1 →
      handleClient fs rootDir buf hs1 bs =
        [(mkHeader 200 "OK" (get_content_type rp) n, ⟨content.data.take n⟩)]) := by
  refine ⟨rfl, ?_, ?_⟩
  · intro hbs
    rw [handleClient_parsed fs rootDir buf hne hp hs1 bs]
    rw [afterParse_success fs rootDir m t bs hdot hm hrp hpre hread]
    rw [if_pos hbs]
  · intro hbs
    rw [handleClient_parsed fs rootDir buf hne hp hs1 bs]
    rw [afterParse_success fs rootDir m t bs hdot hm hrp hpre hread]
    rw [if_neg hbs]

/-- Witness for C9: a body send reporting `-1` after a successful load
produces the 200 response followed by the best-effort 500. -/
theorem send_failure_500_witness :
    handleClient fsDemo "/r" "GET /a.html HTTP/1.0" 7 (-1) =
      [(mkHeader 200 "OK" (get_content_type "/r/a.html") 2,
          ⟨("hi" : String).data.take 2⟩),
        sendErrorPair 500 "Failed to send response body"] :=
  ((send_failure_500 fsDemo "/r" "GET /a.html HTTP/1.0" 7 0 (-1) (by decide)
    (show parse3 "GET /a.html HTTP/1.0" =
      some ("GET", "/a.html", "HTTP/1.0") from by decide)
    (by decide) rfl
    (show fsDemo.realpath (candidateOf "/r" (stripQueryFragment "/a.html")) =
      some "/r/a.html" from by decide)
    (by decide)
    (show read_file (fsDemo.file "/r/a.html") = some ("hi", 2) from by decide)).2.1) rfl

/-- C5: in every response the server sends — success and error alike — the
`Content-Length` value is the exact byte length of the body that follows, the
header block is terminated by an empty line before any body bytes, and a 200
response's body is byte-identical to the file contents read. -/
theorem response_framing (fs : FS) (rootDir buf : String) (hs bs : Int)
    (pr : String × String) (hmem : pr ∈ handleClient fs rootDir buf hs bs) :
    (∃ code text ct, pr.1 = mkHeader code text ct pr.2.length) ∧
    (∃ pre, pr.1 = pre ++ "\r\n\r\n") ∧
    (statusCodeChars pr.1 = ['2', '0', '0'] →
      ∃ rp, read_file (fs.file rp) = some (pr.2, pr.2.length) ∧
        pr.1 = mkHeader 200 "OK" (get_content_type rp) pr.2.length) := by
  have hblank : ∀ (code : Nat) (text ct : String) (len : Nat),
      ∃ pre, mkHeader code text ct len = pre ++ "\r\n\r\n" := by
    intro code text ct len
    refine ⟨"HTTP/1.0 " ++ toString code ++ " " ++ text ++ "\r\n" ++
      "Content-Type: " ++ ct ++ "\r\n" ++ "Content-Length: " ++ toString len, ?_⟩
    unfold mkHeader
    rw [String.append_assoc]
    rw [show ("\r\n" : String) ++ "\r\n" = "\r\n\r\n" from by decide]
  rcases handleClient_mem_cases fs rootDir buf hs bs pr hmem with
    ⟨code, msg, hcode, hpr⟩ | ⟨m, t, pr2, rp, content, n, _hp, _hrp, _hpre, hread, hpr⟩
  · subst hpr
    refine ⟨⟨code, statusTextFor code, "application/json", rfl⟩, hblank .., ?_⟩
    intro h200
    exfalso
    have hsc : ∀ (c : Nat) (s : String), (toString c).data.length = 3 →
        statusCodeChars (sendErrorPair c s).1 = (toString c).data :=
      fun c s h =>
        statusCodeChars_mkHeader c (statusTextFor c) "application/json"
          (errorBody s).length h
    rcases hcode with rfl | rfl | rfl | rfl | rfl
    · rw [hsc 400 msg (by decide)] at h200
      exact absurd h200 (by decide)
    · rw [hsc 403 msg (by decide)] at h200
      exact absurd h200 (by decide)
    · rw [hsc 404 msg (by decide)] at h200
      exact absurd h200 (by decide)
    · rw [hsc 500 msg (by decide)] at h200
      exact absurd h200 (by decide)
    · rw [hsc 501 msg (by decide)] at h200
      exact absurd h200 (by decide)
  · subst hpr
    obtain ⟨hcontent, hclen⟩ := read_file_some hread
    have hbody : (⟨content.data.take n⟩ : String) = content := by
      apply String.ext
      show content.data.take n = content.data
      apply List.take_of_length_le
      have hdl : content.data.length = n := hclen
      omega
    have hlen2 : (⟨content.data.take n⟩ : String).length = n := by
      rw [hbody]
      exact hclen
    refine ⟨⟨200, "OK", get_content_type rp, ?_⟩, ?_, ?_⟩
    · rw [hlen2]
    · exact hblank ..
    · intro _
      refine ⟨rp, ?_, ?_⟩
      · show read_file (fs.file rp) =
          some ((⟨content.data.take n⟩ : String), (⟨content.data.take n⟩ : String).length)
        rw [hlen2, hbody]
        exact hread
      · rw [hlen2]

/-- Witness for C5 at a concrete error response. -/
theorem response_framing_witness :
    ∃ code text ct,
      (sendErrorPair 400 "Malformed request").1 =
        mkHeader code text ct (sendErrorPair 400 "Malformed request").2.length :=
  (response_framing fsEmpty "/r" "GET\r\n" 0 0 (sendErrorPair 400 "Malformed request")
    (by decide)).1

/-- The spec's containment notion for the served file: a strict descendant of
the canonicalized root under byte-prefix containment — the root is a byte
prefix and the path is not the root itself. -/
def isStrictDescendant (rootPath p : String) : Bool :=
  rootPath.data.isPrefixOf p.data && p != rootPath

/-- A filesystem on which the root `/r` canonicalizes to itself and is itself
a readable two-byte regular file (e.g. the configured root is not a
directory). -/
def fs1 : FS where
  realpath := fun s => if s = "/r" then some "/r" else none
  file := fun s =>
    if s = "/r" then ⟨true, 2, true, "hi"⟩ else ⟨false, 0, true, ""⟩

/-- C1 counterexample: the request `GET ?x HTTP/1.0` strips its target to the
empty string, so the candidate path is the root itself; on `fs1` it is served
with 200, yet the served canonical path equals the canonical root and is not
a strict descendant of it. -/
theorem served_root_not_strict_descendant_cex :
    parse3 "GET ?x HTTP/1.0" = some ("GET", "?x", "HTTP/1.0") ∧
    stripQueryFragment "?x" = "" ∧
    fs1.realpath "/r" = some "/r" ∧
    fs1.realpath (candidateOf "/r" (stripQueryFragment "?x")) = some "/r" ∧
    handleClient fs1 "/r" "GET ?x HTTP/1.0" 0 0 =
      [(mkHeader 200 "OK" "text/plain" 2, "hi")] ∧
    statusCodeChars (mkHeader 200 "OK" "text/plain" 2) = ['2', '0', '0'] ∧
    isStrictDescendant "/r" "/r" = false := by
  refine ⟨by decide, by decide, by decide, by decide, by decide, by decide, by decide⟩

/-- C1 (amended): when the root directory canonicalizes, every 200 response
serves a file whose canonicalized path has the canonicalized root as a byte
prefix (though not necessarily as a strict descendant), and every target
whose candidate path canonicalizes to a path not prefixed by the
canonicalized root is answered 403. -/
theorem root_containment (fs : FS) (rootDir buf : String) (hs bs : Int)
    {realRoot : String} (hroot : fs.realpath rootDir = some realRoot) :
    (∀ hdr body rest,
      handleClient fs rootDir buf hs bs = (hdr, body) :: rest →
      statusCodeChars hdr = ['2', '0', '0'] →
      ∃ m t pr2 rp, parse3 buf = some (m, t, pr2) ∧
        fs.realpath (candidateOf rootDir (stripQueryFragment t)) = some rp ∧
        realRoot.data.isPrefixOf rp.data = true) ∧
    (∀ m t pr2 rp, buf ≠ "" → parse3 buf = some (m, t, pr2) → m = "GET" →
      fs.realpath (candidateOf rootDir (stripQueryFragment t)) = some rp →
      realRoot.data.isPrefixOf rp.data = false →
      ∃ msg, handleClient fs rootDir buf hs bs = [sendErrorPair 403 msg]) := by
  constructor
  · intro hdr body rest heq h200
    have hmem : (hdr, body) ∈ handleClient fs rootDir buf hs bs := by
      rw [heq]
      exact List.mem_cons_self ..
    rcases handleClient_mem_cases fs rootDir buf hs bs (hdr, body) hmem with
      ⟨code, msg, hcode, hpr⟩ | ⟨m, t, pr2, rp, content, n, hp, hrp, hpre, _hread, hpr⟩
    · exfalso
      have hhdr : hdr = (sendErrorPair code msg).1 := congrArg Prod.fst hpr
      have hsc : ∀ (c : Nat) (s : String), (toString c).data.length = 3 →
          statusCodeChars (sendErrorPair c s).1 = (toString c).data :=
        fun c s h =>
          statusCodeChars_mkHeader c (statusTextFor c) "application/json"
            (errorBody s).length h
      rw [hhdr] at h200
      rcases hcode with rfl | rfl | rfl | rfl | rfl
      · rw [hsc 400 msg (by decide)] at h200
        exact absurd h200 (by decide)
      · rw [hsc 403 msg (by decide)] at h200
        exact absurd h200 (by decide)
      · rw [hsc 404 msg (by decide)] at h200
        exact absurd h200 (by decide)
      · rw [hsc 500 msg (by decide)] at h200
        exact absurd h200 (by decide)
      · rw [hsc 501 msg (by decide)] at h200
        exact absurd h200 (by decide)
    · refine ⟨m, t, pr2, rp, hp, hrp, ?_⟩
      rw [hroot] at hpre
      exact hpre
  · intro m t pr2 rp hne hp hm hrp hpre
    by_cases hdot : hasDotDot (stripQueryFragment t).data = true
    · exact ⟨"Forbidden path traversal",
        dotdot_after_strip_403 fs rootDir buf hs bs hne hp hdot⟩
    · refine ⟨"Forbidden path", ?_⟩
      rw [handleClient_parsed fs rootDir buf hne hp hs bs]
      refine afterParse_not_contained fs rootDir m t bs
        (Bool.not_eq_true _ ▸ hdot) hm hrp ?_
      rw [hroot]
      exact hpre

/-- A filesystem where the candidate `/r/ev` canonicalizes, via a symlink,
to `/etc/passwd`, outside the root `/r`. -/
def fsEscape : FS where
  realpath := fun s =>
    if s = "/r" then some "/r"
    else if s = "/r/ev" then some "/etc/passwd"
    else none
  file := fun _ => ⟨false, 0, true, ""⟩

/-- Witness for the amended C1: a candidate escaping the root via a symlink
is answered 403. -/
theorem root_containment_witness :
    ∃ msg, handleClient fsEscape "/r" "GET /ev HTTP/1.0" 0 0 =
      [sendErrorPair 403 msg] :=
  (root_containment fsEscape "/r" "GET /ev HTTP/1.0" 0 0
    (show fsEscape.realpath "/r" = some "/r" from by decide)).2
    "GET" "/ev" "HTTP/1.0" "/etc/passwd" (by decide)
    (show parse3 "GET /ev HTTP/1.0" = some ("GET", "/ev", "HTTP/1.0") from by decide)
    rfl
    (show fsEscape.realpath (candidateOf "/r" (stripQueryFragment "/ev")) =
      some "/etc/passwd" from by decide)
    (by decide)

end HttpServer
